import Mathlib

/-!
Verification of the RoadGateway rate-limiting, quota, auth and metrics core.

The definitions below are a shallow embedding of the TypeScript sources:
  - src/middleware/rate-limiter-advanced.ts (limiter family, quota manager,
    adaptive and composite limiters),
  - src/middleware/rate-limiter.ts (fixed-window middleware),
  - src/middleware/auth.ts (permissive and strict auth middleware),
  - the MetricsCollector aggregation shown in the repository README.

Modelling conventions:
  - JavaScript numbers are embedded as rationals where fractional values
    occur (token counts, water levels, load factors, latencies) and as
    integers where the program only ever produces integers (millisecond
    timestamps from Date.now, window sizes, quota counters).  Binary
    floating-point rounding is outside the model.
  - KV reads are passed in as an Option of the stored record; KV writes are
    returned as an Option of the record together with its TTL in seconds,
    so a call that does not write returns none there.
  - Math.floor and Math.ceil are Int.floor and Int.ceil on rationals.
-/

/-- Result record produced by every limiter check
(interface RateLimitResult in rate-limiter-advanced.ts).
The fields remaining and retryAfter only ever hold integers in the source
(Math.floor / Math.ceil results or literal 0), so they are embedded as
integers. -/
structure RateLimitResult where
  allowed : Bool
  remaining : ℤ
  limit : ℚ
  reset : ℚ
  retryAfter : Option ℤ := none
deriving DecidableEq, Repr

/-- Stored state of the sliding-window limiter (the fields of
interface RateLimitState used by SlidingWindowLimiter). -/
structure SWState where
  count : ℤ
  windowStart : ℤ
  lastUpdate : ℤ
  history : List ℤ
deriving DecidableEq, Repr

/-- SlidingWindowLimiter.check.  Parameters limit and windowMs come from the
constructor (windowMs = windowSeconds * 1000).  The second component is the
KV write: the new record and its TTL in seconds, or none when the call
denies and stores nothing.  Math.min of an empty spread is modelled with
default 0; it is only reached when limit is nonpositive. -/
def swCheck (limit : ℤ) (windowMs : ℤ) (now : ℤ) (stored : Option SWState) :
    RateLimitResult × Option (SWState × ℤ) :=
  let state := stored.getD { count := 0, windowStart := now, lastUpdate := now, history := [] }
  let cutoff := now - windowMs
  let history := state.history.filter (fun t => cutoff < t)
  if limit ≤ (history.length : ℤ) then
    let oldest := (history.min?).getD 0
    ({ allowed := false, remaining := 0, limit := (limit : ℚ),
       reset := ((oldest + windowMs : ℤ) : ℚ),
       retryAfter := some (max 1 ⌈((oldest + windowMs - now : ℤ) : ℚ) / 1000⌉) }, none)
  else
    let history2 := history ++ [now]
    ({ allowed := true, remaining := limit - (history2.length : ℤ), limit := (limit : ℚ),
       reset := ((now + windowMs : ℤ) : ℚ), retryAfter := none },
     some ({ count := state.count, windowStart := state.windowStart,
             lastUpdate := now, history := history2 },
           ⌈(windowMs : ℚ) / 1000⌉ + 60))

/-- Stored state of the token-bucket limiter: the tokens and lastUpdate
fields persisted by TokenBucketLimiter.check. -/
structure TBState where
  tokens : ℚ
  lastUpdate : ℤ
deriving DecidableEq, Repr

/-- TokenBucketLimiter.check.  bucketSize and refillRate come from the
constructor; refillInterval = 1000 / refillRatePerSecond.  The source reads
(stateData.tokens || 0); stored token counts are always numbers and the
guard only replaces an absent field by 0, so it is the stored value here. -/
def tbCheck (bucketSize refillRate : ℚ) (now : ℤ) (cost : ℚ) (stored : Option TBState) :
    RateLimitResult × Option (TBState × ℤ) :=
  let refillInterval := 1000 / refillRate
  let tokens : ℚ :=
    match stored with
    | some st =>
        min bucketSize (st.tokens + (⌊((now - st.lastUpdate : ℤ) : ℚ) / refillInterval⌋ : ℤ))
    | none => bucketSize
  if tokens < cost then
    let refillTime : ℤ := ⌈(cost - tokens) * refillInterval⌉
    ({ allowed := false, remaining := ⌊tokens⌋, limit := bucketSize,
       reset := (now : ℚ) + (refillTime : ℚ),
       retryAfter := some ⌈(refillTime : ℚ) / 1000⌉ }, none)
  else
    let tokens2 := tokens - cost
    ({ allowed := true, remaining := ⌊tokens2⌋, limit := bucketSize,
       reset := (now : ℚ) + refillInterval, retryAfter := none },
     some ({ tokens := tokens2, lastUpdate := now }, 3600))

/-- Stored state of the leaky-bucket limiter: the count (water level) and
lastUpdate fields persisted by LeakyBucketLimiter.check. -/
structure LBState where
  count : ℚ
  lastUpdate : ℤ
deriving DecidableEq, Repr

/-- LeakyBucketLimiter.check.  bucketSize and leakRate come from the
constructor.  elapsed is in seconds ((now - lastUpdate) / 1000). -/
def lbCheck (bucketSize leakRate : ℚ) (now : ℤ) (stored : Option LBState) :
    RateLimitResult × Option (LBState × ℤ) :=
  let waterLevel : ℚ :=
    match stored with
    | some st => max 0 (st.count - ((now - st.lastUpdate : ℤ) : ℚ) / 1000 * leakRate)
    | none => 0
  if bucketSize ≤ waterLevel then
    let drainTime := (waterLevel - bucketSize + 1) / leakRate
    ({ allowed := false, remaining := 0, limit := bucketSize,
       reset := (now : ℚ) + drainTime * 1000, retryAfter := some ⌈drainTime⌉ }, none)
  else
    let water2 := waterLevel + 1
    ({ allowed := true, remaining := ⌊bucketSize - water2⌋, limit := bucketSize,
       reset := (now : ℚ) + 1000 / leakRate, retryAfter := none },
     some ({ count := water2, lastUpdate := now }, 3600))

/-- The three quota periods tracked by QuotaManager. -/
inductive QuotaPeriod where
  | daily
  | monthly
  | minute
deriving DecidableEq, Repr

/-- Quota limits (interface QuotaConfig). -/
structure QuotaConfig where
  daily : ℤ
  monthly : ℤ
  perMinute : ℤ
deriving DecidableEq, Repr

/-- Stored per-user quota record (interface QuotaState), flattened. -/
structure QuotaState where
  dailyCount : ℤ
  dailyDate : String
  monthlyCount : ℤ
  monthlyMonth : String
  minuteCount : ℤ
  minuteTs : ℤ
deriving DecidableEq, Repr

/-- The minute bucket derived from the current time:
Math.floor(now.getTime() / 60000) * 60000. -/
def minuteBucket (nowMs : ℤ) : ℤ := Int.fdiv nowMs 60000 * 60000

/-- The month identifier derived from the date string: today.slice(0, 7). -/
def monthOf (today : String) : String := String.mk (today.data.take 7)

/-- The period-rollover part of QuotaManager.checkAndIncrement: the state
after each counter whose stored period identifier no longer matches the
current one has been reset.  today is the ISO date string for the current
time, from which the month identifier is sliced. -/
def quotaResetState (today : String) (nowMs : ℤ) (stored : Option QuotaState) : QuotaState :=
  let st := stored.getD
    { dailyCount := 0, dailyDate := today, monthlyCount := 0, monthlyMonth := monthOf today,
      minuteCount := 0, minuteTs := minuteBucket nowMs }
  let st1 := if st.dailyDate ≠ today
    then { st with dailyCount := 0, dailyDate := today } else st
  let st2 := if st1.monthlyMonth ≠ monthOf today
    then { st1 with monthlyCount := 0, monthlyMonth := monthOf today } else st1
  if st2.minuteTs ≠ minuteBucket nowMs
    then { st2 with minuteCount := 0, minuteTs := minuteBucket nowMs } else st2

/-- Return value of QuotaManager.checkAndIncrement, together with the KV
write it performs (none on denial). -/
structure QuotaOutcome where
  allowed : Bool
  minuteUsed : ℤ
  minuteLimit : ℤ
  dailyUsed : ℤ
  dailyLimit : ℤ
  monthlyUsed : ℤ
  monthlyLimit : ℤ
  exceededQuota : Option QuotaPeriod
  write : Option (QuotaState × ℤ)
deriving DecidableEq, Repr

/-- QuotaManager.checkAndIncrement. -/
def checkAndIncrement (cfg : QuotaConfig) (today : String) (nowMs : ℤ)
    (stored : Option QuotaState) : QuotaOutcome :=
  let st := quotaResetState today nowMs stored
  let exceeded : Option QuotaPeriod :=
    if cfg.perMinute ≤ st.minuteCount then some QuotaPeriod.minute
    else if cfg.daily ≤ st.dailyCount then some QuotaPeriod.daily
    else if cfg.monthly ≤ st.monthlyCount then some QuotaPeriod.monthly
    else none
  match exceeded with
  | some p =>
      { allowed := false,
        minuteUsed := st.minuteCount, minuteLimit := cfg.perMinute,
        dailyUsed := st.dailyCount, dailyLimit := cfg.daily,
        monthlyUsed := st.monthlyCount, monthlyLimit := cfg.monthly,
        exceededQuota := some p, write := none }
  | none =>
      let st2 := { st with minuteCount := st.minuteCount + 1,
                           dailyCount := st.dailyCount + 1,
                           monthlyCount := st.monthlyCount + 1 }
      { allowed := true,
        minuteUsed := st2.minuteCount, minuteLimit := cfg.perMinute,
        dailyUsed := st2.dailyCount, dailyLimit := cfg.daily,
        monthlyUsed := st2.monthlyCount, monthlyLimit := cfg.monthly,
        exceededQuota := none, write := some (st2, 86400 * 32) }

/-- AdaptiveRateLimiter.minLoadFactor. -/
def minLoadFactor : ℚ := 1/5

/-- AdaptiveRateLimiter.maxLoadFactor. -/
def maxLoadFactor : ℚ := 2

/-- AdaptiveRateLimiter.updateLoadFactor: the value stored under the KV key
rl:load-factor as a function of currentLoad and maxLoad. -/
def updateLoadFactor (currentLoad maxLoad : ℚ) : ℚ :=
  let loadPercent := currentLoad / maxLoad
  if 9/10 < loadPercent then minLoadFactor
  else if 7/10 < loadPercent then 1/2
  else if 1/2 < loadPercent then 3/4
  else if loadPercent < 3/10 then maxLoadFactor
  else 1

/-- AdaptiveRateLimiter.check: loads the stored factor (falling back to the
instance field when the key is absent) and delegates to the wrapped token
bucket with cost = 1 / loadFactor. -/
def adaptiveCheck (bucketSize refillRate : ℚ) (storedFactor : Option ℚ)
    (instanceFactor : ℚ) (now : ℤ) (tbState : Option TBState) :
    RateLimitResult × Option (TBState × ℤ) :=
  let loadFactor := storedFactor.getD instanceFactor
  tbCheck bucketSize refillRate now (1 / loadFactor) tbState

/-- One registered entry of CompositeRateLimiter.  The member limiter is
embedded as a state transformer over the KV state sigma; each concrete
limiter supplies its check threaded through its own stored record. -/
structure CompEntry (σ : Type) where
  name : String
  limiterCheck : σ → RateLimitResult × σ
  priority : ℚ

/-- Return value of CompositeRateLimiter.check: the RateLimitResult plus
the optional limiterName of the denying member. -/
structure CompositeResult where
  res : RateLimitResult
  limiterName : Option String
deriving DecidableEq, Repr

/-- CompositeRateLimiter.add: push the entry, then sort by descending
priority (the comparator (a, b) => b.priority - a.priority with a stable
sort, as JavaScript engines implement Array.prototype.sort). -/
def addLimiter {σ : Type} (entries : List (CompEntry σ)) (e : CompEntry σ) :
    List (CompEntry σ) :=
  (entries ++ [e]).mergeSort (fun a b => decide (b.priority ≤ a.priority))

/-- The for-loop of CompositeRateLimiter.check: probe the entries in list
order, threading the KV state.  A denial stops the loop with the result and
the denier, Sum.inl; if every entry allows, Sum.inr carries the state after
all probes. -/
def compositeProbe {σ : Type} : List (CompEntry σ) → σ → Sum (CompositeResult × σ) σ
  | [], s => Sum.inr s
  | e :: rest, s =>
      let out := e.limiterCheck s
      if out.fst.allowed then compositeProbe rest out.snd
      else Sum.inl ({ res := out.fst, limiterName := some e.name }, out.snd)

/-- CompositeRateLimiter.check.  When the loop finishes with every member
allowing, the source reads this.limiters[this.limiters.length - 1] and
calls its check a second time; on an empty list that indexing yields
undefined and the member access throws, modelled as none. -/
def compositeCheck {σ : Type} (entries : List (CompEntry σ)) (s : σ) :
    Option (CompositeResult × σ) :=
  match compositeProbe entries s with
  | Sum.inl out => some out
  | Sum.inr s1 =>
      match entries.getLast? with
      | some last =>
          let out := last.limiterCheck s1
          some ({ res := out.fst, limiterName := none }, out.snd)
      | none => none

/-- JSON error body of the fixed-window middleware 429 response. -/
structure DenyBody where
  error : String
  message : String
  retryAfter : ℤ
deriving DecidableEq, Repr

/-- Outcome of the fixed-window rate-limit middleware: either a 429
response, or the request is passed to the next handler carrying the headers
set so far and a flag recording whether a KV error was logged. -/
inductive MwOutcome where
  | denyResponse (status : ℤ) (headers : List (String × String)) (body : DenyBody)
  | nextHandler (headers : List (String × String)) (loggedError : Bool)
deriving DecidableEq, Repr

/-- defaultConfig.windowMs of rate-limiter.ts. -/
def rlWindowMs : ℤ := 60000

/-- defaultConfig.max of rate-limiter.ts. -/
def rlMax : ℤ := 100

/-- The rateLimiter middleware of rate-limiter.ts, for a configured KV
binding.  kvGet is the result of the windowed-counter read: an exception,
or the parsed stored count (the source stores decimal numerals, so the
parseInt round-trip is the integer itself).  kvPutOk tells whether the
counter increment write succeeds; on either KV failure the catch block logs
and falls through to next() with no headers set. -/
def rateLimiterMw (now : ℤ) (kvGet : Except Unit (Option ℤ)) (kvPutOk : Bool) : MwOutcome :=
  let windowStart := Int.fdiv now rlWindowMs * rlWindowMs
  match kvGet with
  | Except.error _ => MwOutcome.nextHandler [] true
  | Except.ok stored =>
      let count := stored.getD 0
      if rlMax ≤ count then
        let retryAfter : ℤ := ⌈((windowStart + rlWindowMs - now : ℤ) : ℚ) / 1000⌉
        MwOutcome.denyResponse 429
          [("X-RateLimit-Limit", toString rlMax),
           ("X-RateLimit-Remaining", "0"),
           ("X-RateLimit-Reset", toString (windowStart + rlWindowMs))]
          { error := "Too Many Requests",
            message := "Rate limit exceeded. Try again in " ++ toString retryAfter ++ " seconds",
            retryAfter := retryAfter }
      else if kvPutOk then
        MwOutcome.nextHandler
          [("X-RateLimit-Limit", toString rlMax),
           ("X-RateLimit-Remaining", toString (rlMax - count - 1)),
           ("X-RateLimit-Reset", toString (windowStart + rlWindowMs))]
          false
      else MwOutcome.nextHandler [] true

/-- Outcome of the auth middleware: pass to next() or a 401 JSON response. -/
inductive AuthResult where
  | next
  | unauthorized401
deriving DecidableEq, Repr

/-- JavaScript truthiness of an optional header value: absent and the empty
string are falsy. -/
def truthy (o : Option String) : Bool :=
  match o with
  | none => false
  | some s => s ≠ ""

/-- String.prototype.split with a single-character separator: splits at
every occurrence and keeps empty segments, so splitting the empty string
yields one empty segment. -/
def splitOnCharAux (sep : Char) : List Char → List Char → List String → List String
  | [], acc, out => out ++ [String.mk acc.reverse]
  | c :: rest, acc, out =>
      if c = sep then splitOnCharAux sep rest [] (out ++ [String.mk acc.reverse])
      else splitOnCharAux sep rest (c :: acc) out

/-- Entry point of the split model. -/
def splitOnChar (sep : Char) (s : String) : List String :=
  splitOnCharAux sep s.data [] []

/-- The configured key set: (env.API_KEYS || '').split(',').filter(Boolean). -/
def validKeysOf (env : Option String) : List String :=
  (splitOnChar ',' (env.getD "")).filter (fun s => s ≠ "")

/-- The permissive auth middleware of auth.ts.  The Bearer branch of the
source accepts any nonempty token and otherwise falls through, and the
fall-through also calls next(), so both arms pass; the branch is kept to
mirror the source. -/
def authMw (path : String) (apiKey authHeader env : Option String) : AuthResult :=
  if path = "/health" then AuthResult.next
  else if truthy apiKey then
    let k := apiKey.getD ""
    if validKeysOf env ≠ [] ∧ k ∉ validKeysOf env then AuthResult.unauthorized401
    else AuthResult.next
  else
    match authHeader with
    | some h =>
        if ("Bearer ".data).isPrefixOf h.data ∧ String.mk (h.data.drop 7) ≠ ""
        then AuthResult.next
        else AuthResult.next
    | none => AuthResult.next

/-- The strict requireAuth middleware of auth.ts: 401 when neither header
is present (truthy), otherwise delegate to the permissive middleware. -/
def requireAuthMw (path : String) (apiKey authHeader env : Option String) : AuthResult :=
  if ¬ truthy apiKey ∧ ¬ truthy authHeader then AuthResult.unauthorized401
  else authMw path apiKey authHeader env

/-- One recorded request metric, restricted to the fields the latency
aggregation reads. -/
structure RequestMetric where
  timestamp : ℤ
  latencyMs : ℚ
  statusCode : ℤ
  cached : Bool
deriving DecidableEq, Repr

/-- The latency block of AggregatedMetrics. -/
structure LatencyStats where
  avg : ℚ
  p50 : ℚ
  p95 : ℚ
  p99 : ℚ
  min : ℚ
  max : ℚ
deriving DecidableEq, Repr

/-- Index computed by MetricsCollector.percentile for a list of length n:
Math.max(0, Math.ceil(p / 100 * n) - 1). -/
def percentileIndex (n : ℕ) (p : ℚ) : ℕ :=
  (max 0 (⌈p / 100 * (n : ℚ)⌉ - 1)).toNat

/-- MetricsCollector.percentile: the sorted latencies indexed at
percentileIndex.  Indexing is total here with default 0; the aggregation
only calls it on nonempty input with 0 < p <= 100, where it is in bounds. -/
def percentileOf (sorted : List ℚ) (p : ℚ) : ℚ :=
  sorted.getD (percentileIndex sorted.length p) 0

/-- The window filter of MetricsCollector.getAggregated:
metrics with timestamp >= now - windowMinutes * 60 * 1000. -/
def relevantMetrics (metrics : List RequestMetric) (nowMs windowMinutes : ℤ) :
    List RequestMetric :=
  metrics.filter (fun m => nowMs - windowMinutes * 60 * 1000 ≤ m.timestamp)

/-- The latency part of MetricsCollector.getAggregated: sort the relevant
latencies ascending (the comparator (a, b) => a - b), then take avg, the
three percentiles, the first element as min and the last as max.  On an
empty window the source returns the zero record. -/
def getAggregatedLatency (metrics : List RequestMetric) (nowMs windowMinutes : ℤ) :
    LatencyStats :=
  let relevant := relevantMetrics metrics nowMs windowMinutes
  if relevant.isEmpty then
    { avg := 0, p50 := 0, p95 := 0, p99 := 0, min := 0, max := 0 }
  else
    let latencies := (relevant.map (fun m => m.latencyMs)).mergeSort
    { avg := latencies.sum / (latencies.length : ℚ),
      p50 := percentileOf latencies 50,
      p95 := percentileOf latencies 95,
      p99 := percentileOf latencies 99,
      min := latencies.getD 0 0,
      max := latencies.getD (latencies.length - 1) 0 }

/-! ## Helper lemmas -/

/-- Nested ceiling: dividing an already-ceiled value by 1000 and ceiling
again equals ceiling the single division.  This equates the source's
Math.ceil(Math.ceil(tokensNeeded * refillInterval) / 1000) with the spec's
single ceiling. -/
theorem ceil_cast_div_1000 (x : ℚ) : ⌈((⌈x⌉ : ℤ) : ℚ) / 1000⌉ = ⌈x / 1000⌉ := by
  apply le_antisymm
  · rw [Int.ceil_le, div_le_iff₀ (show (0:ℚ) < 1000 by norm_num)]
    have h2 : x ≤ (⌈x / 1000⌉ : ℚ) * 1000 := by
      rw [← div_le_iff₀ (show (0:ℚ) < 1000 by norm_num)]
      exact Int.le_ceil _
    have h3 : (⌈x⌉ : ℤ) ≤ ⌈x / 1000⌉ * 1000 := by
      rw [Int.ceil_le]
      push_cast
      exact h2
    exact_mod_cast h3
  · refine Int.ceil_mono ?_
    gcongr
    exact Int.le_ceil x

/-! ## C3: token-bucket check against the spec formulas -/

/-- C3: for a present stored state and a call at time now, the token bucket
first refills by the floor of elapsed over refillInterval, capped at
bucketSize; with fewer refilled tokens than cost it denies with
retryAfter = the ceiling of (cost - tokens) * refillInterval / 1000 seconds
and writes nothing; otherwise it subtracts cost, persists the new tokens
with lastUpdate = now and TTL 3600 seconds, and allows with
remaining = the floor of the remaining tokens.  The positivity hypothesis
on the refill rate marks where the rational model of the source's
1000 / refillRatePerSecond is meaningful. -/
theorem tokenBucket_check_spec (bucketSize refillRate : ℚ) (now : ℤ) (cost : ℚ)
    (st : TBState) ( _hr : 0 < refillRate) :
    let refillInterval := 1000 / refillRate
    let tokens := min bucketSize
      (st.tokens + (⌊((now - st.lastUpdate : ℤ) : ℚ) / refillInterval⌋ : ℤ))
    (tokens < cost →
      (tbCheck bucketSize refillRate now cost (some st)).fst.allowed = false ∧
      (tbCheck bucketSize refillRate now cost (some st)).fst.retryAfter
        = some ⌈(cost - tokens) * refillInterval / 1000⌉ ∧
      (tbCheck bucketSize refillRate now cost (some st)).snd = none) ∧
    (cost ≤ tokens →
      (tbCheck bucketSize refillRate now cost (some st)).fst.allowed = true ∧
      (tbCheck bucketSize refillRate now cost (some st)).fst.remaining = ⌊tokens - cost⌋ ∧
      (tbCheck bucketSize refillRate now cost (some st)).snd
        = some ({ tokens := tokens - cost, lastUpdate := now }, 3600)) := by
  intro refillInterval tokens
  constructor
  · intro hlt
    refine ⟨?_, ?_, ?_⟩ <;>
      simp only [tbCheck, if_pos hlt]
    rw [ceil_cast_div_1000, mul_div_assoc]
  · intro hge
    have hnlt : ¬ tokens < cost := not_lt.mpr hge
    refine ⟨?_, ?_, ?_⟩ <;> simp only [tbCheck, if_neg hnlt]

/-- Witness for tokenBucket_check_spec: state tokens 0 and lastUpdate 0,
checked at now = 1000 with rate 1 refills one token, which covers cost 1. -/
theorem tokenBucket_check_spec_witness :
    (0:ℚ) < 1 ∧ (tbCheck 10 1 1000 1 (some { tokens := 0, lastUpdate := 0 })).fst.allowed = true :=
  ⟨by norm_num,
   ((tokenBucket_check_spec 10 1 1000 1 { tokens := 0, lastUpdate := 0 } (by norm_num)).2
     (by norm_num)).1⟩

/-! ## C2: result invariants of the three limiters -/

/-- C2 (amended): every sliding-window result has remaining at least 0, and
every token-bucket result does under a monotone clock and a well-formed
stored state; the leaky bucket only guarantees remaining at least -1, the
value -1 being reached when a fractional leak leaves the post-increment
water level above bucketSize.  In all three limiters an allowed result
carries no retryAfter. -/
theorem limiter_result_invariants :
    (∀ (limit windowMs now : ℤ) (stored : Option SWState),
      0 ≤ (swCheck limit windowMs now stored).fst.remaining ∧
      ((swCheck limit windowMs now stored).fst.allowed = true →
        (swCheck limit windowMs now stored).fst.retryAfter = none)) ∧
    (∀ (bucketSize refillRate : ℚ) (now : ℤ) (cost : ℚ) (stored : Option TBState),
      0 ≤ bucketSize → 0 < refillRate →
      (∀ st, stored = some st → 0 ≤ st.tokens ∧ st.lastUpdate ≤ now) →
      0 ≤ (tbCheck bucketSize refillRate now cost stored).fst.remaining ∧
      ((tbCheck bucketSize refillRate now cost stored).fst.allowed = true →
        (tbCheck bucketSize refillRate now cost stored).fst.retryAfter = none)) ∧
    (∀ (bucketSize leakRate : ℚ) (now : ℤ) (stored : Option LBState),
      -1 ≤ (lbCheck bucketSize leakRate now stored).fst.remaining ∧
      ((lbCheck bucketSize leakRate now stored).fst.allowed = true →
        (lbCheck bucketSize leakRate now stored).fst.retryAfter = none)) := by
  refine ⟨fun limit windowMs now stored => ?_, fun bs rr now cost stored hbs hrr hwf => ?_,
    fun bs lr now stored => ?_⟩
  · simp only [swCheck]
    split_ifs with h
    · exact ⟨le_refl 0, fun hc => by simp at hc⟩
    · refine ⟨?_, fun _ => rfl⟩
      rw [not_le] at h
      simp only [List.length_append, List.length_cons, List.length_nil]
      omega
  · rcases stored with _ | st
    · simp only [tbCheck]
      split_ifs with h
      · exact ⟨Int.floor_nonneg.mpr hbs, fun hc => by simp at hc⟩
      · rw [not_lt] at h
        exact ⟨Int.floor_nonneg.mpr (by linarith), fun _ => rfl⟩
    · have hwf' := hwf st rfl
      have hElapsed : (0:ℚ) ≤ ((now - st.lastUpdate : ℤ) : ℚ) := by
        have h2 : (0 : ℤ) ≤ now - st.lastUpdate := by
          have := hwf'.2
          omega
        exact_mod_cast h2
      have hFloorNN : (0:ℤ) ≤ ⌊((now - st.lastUpdate : ℤ) : ℚ) / (1000 / rr)⌋ := by
        apply Int.floor_nonneg.mpr
        positivity
      have hFloorNN' : (0:ℚ) ≤ (⌊((now - st.lastUpdate : ℤ) : ℚ) / (1000 / rr)⌋ : ℤ) := by
        exact_mod_cast hFloorNN
      have htok : 0 ≤ min bs
          (st.tokens + (⌊((now - st.lastUpdate : ℤ) : ℚ) / (1000 / rr)⌋ : ℤ)) :=
        le_min hbs (by linarith [hwf'.1])
      simp only [tbCheck]
      split_ifs with h
      · exact ⟨Int.floor_nonneg.mpr htok, fun hc => by simp at hc⟩
      · rw [not_lt] at h
        exact ⟨Int.floor_nonneg.mpr (by linarith), fun _ => rfl⟩
  · rcases stored with _ | st
    · simp only [lbCheck]
      split_ifs with h
      · exact ⟨by norm_num, fun hc => by simp at hc⟩
      · rw [not_le] at h
        refine ⟨?_, fun _ => rfl⟩
        rw [Int.le_floor]
        push_cast
        linarith
    · simp only [lbCheck]
      split_ifs with h
      · exact ⟨by norm_num, fun hc => by simp at hc⟩
      · rw [not_le] at h
        refine ⟨?_, fun _ => rfl⟩
        rw [Int.le_floor]
        push_cast
        push_cast at h
        linarith

/-- Counterexample to C2 as stated: a leaky bucket of size 5 leaking 1 per
second, holding stored water level 5 written at time 0, checked at time
500 ms, leaks half a unit, admits the request and reports remaining = -1,
violating remaining at least 0. -/
theorem leakyBucket_negative_remaining_cex :
    (lbCheck 5 1 500 (some { count := 5, lastUpdate := 0 })).fst.allowed = true ∧
    (lbCheck 5 1 500 (some { count := 5, lastUpdate := 0 })).fst.remaining = -1 := by
  constructor <;> norm_num [lbCheck]

/-- Witness for limiter_result_invariants: the token-bucket conjunct applied
to a well-formed stored state. -/
theorem limiter_result_invariants_witness :
    ((0:ℚ) ≤ 10 ∧ (0:ℚ) < 1) ∧
    0 ≤ (tbCheck 10 1 500 1 (some { tokens := 3, lastUpdate := 0 })).fst.remaining :=
  ⟨⟨by norm_num, by norm_num⟩,
   (limiter_result_invariants.2.1 10 1 500 1 (some { tokens := 3, lastUpdate := 0 })
     (by norm_num) (by norm_num)
     (by
       intro st hst
       rw [Option.some_inj] at hst
       subst hst
       exact ⟨by norm_num, by norm_num⟩)).1⟩

/-! ## C4 and C5: quota manager -/

/-- C4: checkAndIncrement evaluates minute, then daily, then monthly
against the rollover-adjusted counters; the first period at or above its
limit is reported as exceededQuota with allowed false, no counter
incremented and nothing written to KV; when none is exceeded all three
counters are incremented and the state is persisted with TTL
86400 * 32 seconds (32 days). -/
theorem quota_first_exceeded_denies_without_write (cfg : QuotaConfig) (today : String)
    (nowMs : ℤ) (stored : Option QuotaState) :
    let st := quotaResetState today nowMs stored
    let o := checkAndIncrement cfg today nowMs stored
    (cfg.perMinute ≤ st.minuteCount →
      o.allowed = false ∧ o.exceededQuota = some QuotaPeriod.minute ∧ o.write = none ∧
      o.minuteUsed = st.minuteCount ∧ o.dailyUsed = st.dailyCount ∧
      o.monthlyUsed = st.monthlyCount) ∧
    (st.minuteCount < cfg.perMinute → cfg.daily ≤ st.dailyCount →
      o.allowed = false ∧ o.exceededQuota = some QuotaPeriod.daily ∧ o.write = none ∧
      o.minuteUsed = st.minuteCount ∧ o.dailyUsed = st.dailyCount ∧
      o.monthlyUsed = st.monthlyCount) ∧
    (st.minuteCount < cfg.perMinute → st.dailyCount < cfg.daily →
      cfg.monthly ≤ st.monthlyCount →
      o.allowed = false ∧ o.exceededQuota = some QuotaPeriod.monthly ∧ o.write = none ∧
      o.minuteUsed = st.minuteCount ∧ o.dailyUsed = st.dailyCount ∧
      o.monthlyUsed = st.monthlyCount) ∧
    (st.minuteCount < cfg.perMinute → st.dailyCount < cfg.daily →
      st.monthlyCount < cfg.monthly →
      o.allowed = true ∧ o.exceededQuota = none ∧
      o.write = some ({ st with minuteCount := st.minuteCount + 1,
                                dailyCount := st.dailyCount + 1,
                                monthlyCount := st.monthlyCount + 1 }, 86400 * 32)) := by
  intro st o
  unfold o st
  refine ⟨fun h1 => ?_, fun h1 h2 => ?_, fun h1 h2 h3 => ?_, fun h1 h2 h3 => ?_⟩
  · simp [checkAndIncrement, h1]
  · simp [checkAndIncrement, not_le.mpr h1, h2]
  · simp [checkAndIncrement, not_le.mpr h1, not_le.mpr h2, h3]
  · simp [checkAndIncrement, not_le.mpr h1, not_le.mpr h2, not_le.mpr h3]

/-- Witness for quota_first_exceeded_denies_without_write: a fresh user
under limits perMinute 3, daily 5, monthly 10 is allowed. -/
theorem quota_first_exceeded_witness :
    ((quotaResetState "2024-01-05" 120000 none).minuteCount < 3 ∧
     (quotaResetState "2024-01-05" 120000 none).dailyCount < 5 ∧
     (quotaResetState "2024-01-05" 120000 none).monthlyCount < 10) ∧
    (checkAndIncrement { daily := 5, monthly := 10, perMinute := 3 }
      "2024-01-05" 120000 none).allowed = true :=
  ⟨⟨by decide, by decide, by decide⟩,
   ((quota_first_exceeded_denies_without_write
       { daily := 5, monthly := 10, perMinute := 3 } "2024-01-05" 120000 none).2.2.2
     (by decide) (by decide) (by decide)).1⟩

/-- C5: on every call each counter whose stored period identifier differs
from the identifier derived from the current time is reset to 0 (with the
identifier updated) before limits are checked, and the resets are what the
persisted state is built from, so the first allowed request of a new period
persists that counter as 1. -/
theorem quota_period_rollover_resets (cfg : QuotaConfig) (today : String) (nowMs : ℤ)
    (st : QuotaState) :
    ((st.dailyDate ≠ today →
        (quotaResetState today nowMs (some st)).dailyCount = 0 ∧
        (quotaResetState today nowMs (some st)).dailyDate = today) ∧
     (st.monthlyMonth ≠ monthOf today →
        (quotaResetState today nowMs (some st)).monthlyCount = 0 ∧
        (quotaResetState today nowMs (some st)).monthlyMonth = monthOf today) ∧
     (st.minuteTs ≠ minuteBucket nowMs →
        (quotaResetState today nowMs (some st)).minuteCount = 0 ∧
        (quotaResetState today nowMs (some st)).minuteTs = minuteBucket nowMs)) ∧
    ((checkAndIncrement cfg today nowMs (some st)).allowed = true →
      ∀ w ttl, (checkAndIncrement cfg today nowMs (some st)).write = some (w, ttl) →
        (st.dailyDate ≠ today → w.dailyCount = 1) ∧
        (st.monthlyMonth ≠ monthOf today → w.monthlyCount = 1) ∧
        (st.minuteTs ≠ minuteBucket nowMs → w.minuteCount = 1)) := by
  have hresets :
      (st.dailyDate ≠ today → (quotaResetState today nowMs (some st)).dailyCount = 0 ∧
        (quotaResetState today nowMs (some st)).dailyDate = today) ∧
      (st.monthlyMonth ≠ monthOf today →
        (quotaResetState today nowMs (some st)).monthlyCount = 0 ∧
        (quotaResetState today nowMs (some st)).monthlyMonth = monthOf today) ∧
      (st.minuteTs ≠ minuteBucket nowMs →
        (quotaResetState today nowMs (some st)).minuteCount = 0 ∧
        (quotaResetState today nowMs (some st)).minuteTs = minuteBucket nowMs) := by
    by_cases hd : st.dailyDate = today <;>
      by_cases hm : st.monthlyMonth = monthOf today <;>
        by_cases hmin : st.minuteTs = minuteBucket nowMs <;>
          simp [quotaResetState, hd, hm, hmin]
  refine ⟨hresets, fun hallow w ttl hw => ?_⟩
  have hwval : w = { quotaResetState today nowMs (some st) with
      minuteCount := (quotaResetState today nowMs (some st)).minuteCount + 1,
      dailyCount := (quotaResetState today nowMs (some st)).dailyCount + 1,
      monthlyCount := (quotaResetState today nowMs (some st)).monthlyCount + 1 } := by
    by_cases h1 : cfg.perMinute ≤ (quotaResetState today nowMs (some st)).minuteCount
    · simp [checkAndIncrement, h1] at hallow
    · by_cases h2 : cfg.daily ≤ (quotaResetState today nowMs (some st)).dailyCount
      · simp [checkAndIncrement, h1, h2] at hallow
      · by_cases h3 : cfg.monthly ≤ (quotaResetState today nowMs (some st)).monthlyCount
        · simp [checkAndIncrement, h1, h2, h3] at hallow
        · simp [checkAndIncrement, h1, h2, h3] at hw
          exact hw.1.symm
  subst hwval
  refine ⟨fun hd => ?_, fun hm => ?_, fun hmin => ?_⟩
  · simp [(hresets.1 hd).1]
  · simp [(hresets.2.1 hm).1]
  · simp [(hresets.2.2 hmin).1]

/-- Witness for quota_period_rollover_resets: a user whose stored day,
month and minute identifiers are all stale gets its daily counter
persisted as 1 on the first allowed request of the new day. -/
theorem quota_period_rollover_witness :
    (({ dailyCount := 2, dailyDate := "2024-01-04", monthlyCount := 3,
        monthlyMonth := "2023-12", minuteCount := 1, minuteTs := 60000 } :
        QuotaState).dailyDate ≠ "2024-01-05") ∧
    ({ dailyCount := 1, dailyDate := "2024-01-05", monthlyCount := 1,
       monthlyMonth := "2024-01", minuteCount := 1, minuteTs := 120000 } :
       QuotaState).dailyCount = 1 :=
  ⟨by decide,
   ((quota_period_rollover_resets { daily := 5, monthly := 10, perMinute := 3 }
       "2024-01-05" 120000
       { dailyCount := 2, dailyDate := "2024-01-04", monthlyCount := 3,
         monthlyMonth := "2023-12", minuteCount := 1, minuteTs := 60000 }).2
     (by decide)
     { dailyCount := 1, dailyDate := "2024-01-05", monthlyCount := 1,
       monthlyMonth := "2024-01", minuteCount := 1, minuteTs := 120000 }
     2764800 (by decide)).1 (by decide)⟩

/-! ## C6: adaptive limiter -/

/-- C6: updateLoadFactor stores the factor given by the load table
(loadPercent above 0.9 gives 0.2, above 0.7 gives 0.5, above 0.5 gives
0.75, between 0.3 and 0.5 gives 1.0, below 0.3 gives 2.0); the stored
factor always lies in [0.2, 2.0]; and check with a stored factor delegates
to the wrapped token bucket with cost = 1 / loadFactor.  The positivity of
maxLoad marks where the rational division models the source's loadPercent. -/
theorem adaptive_load_factor_spec :
    (∀ currentLoad maxLoad : ℚ, 0 < maxLoad →
      ((9/10 < currentLoad / maxLoad → updateLoadFactor currentLoad maxLoad = 1/5) ∧
       (7/10 < currentLoad / maxLoad → currentLoad / maxLoad ≤ 9/10 →
         updateLoadFactor currentLoad maxLoad = 1/2) ∧
       (1/2 < currentLoad / maxLoad → currentLoad / maxLoad ≤ 7/10 →
         updateLoadFactor currentLoad maxLoad = 3/4) ∧
       (3/10 ≤ currentLoad / maxLoad → currentLoad / maxLoad ≤ 1/2 →
         updateLoadFactor currentLoad maxLoad = 1) ∧
       (currentLoad / maxLoad < 3/10 → updateLoadFactor currentLoad maxLoad = 2)) ∧
      1/5 ≤ updateLoadFactor currentLoad maxLoad ∧
      updateLoadFactor currentLoad maxLoad ≤ 2) ∧
    (∀ (bucketSize refillRate f instanceFactor : ℚ) (now : ℤ) (st : Option TBState),
      adaptiveCheck bucketSize refillRate (some f) instanceFactor now st
        = tbCheck bucketSize refillRate now (1 / f) st) := by
  constructor
  · intro currentLoad maxLoad _hml
    constructor
    · refine ⟨fun h1 => ?_, fun h1 h2 => ?_, fun h1 h2 => ?_, fun h1 h2 => ?_, fun h1 => ?_⟩ <;>
        simp only [updateLoadFactor, minLoadFactor, maxLoadFactor] <;>
        split_ifs <;> first | rfl | linarith
    · simp only [updateLoadFactor, minLoadFactor, maxLoadFactor]
      split_ifs <;> norm_num
  · intro bucketSize refillRate f instanceFactor now st
    rfl

/-- Witness for adaptive_load_factor_spec: load 95 of 100 stores the
minimum factor 0.2. -/
theorem adaptive_load_factor_witness :
    ((0:ℚ) < 100 ∧ (9:ℚ)/10 < 95 / 100) ∧ updateLoadFactor 95 100 = 1/5 :=
  ⟨⟨by norm_num, by norm_num⟩,
   (adaptive_load_factor_spec.1 95 100 (by norm_num)).1.1 (by norm_num)⟩

/-! ## C1 and C10: composite limiter -/

/-- An all-allowing pass of the probe loop: every entry of the list allows
in turn, threading the state from s to s2. -/
inductive ProbeAllows {σ : Type} : List (CompEntry σ) → σ → σ → Prop where
  | nil (s : σ) : ProbeAllows [] s s
  | cons (e : CompEntry σ) (rest : List (CompEntry σ)) (s s2 : σ)
      (hallow : (e.limiterCheck s).fst.allowed = true)
      (htail : ProbeAllows rest (e.limiterCheck s).snd s2) :
      ProbeAllows (e :: rest) s s2

/-- A fully-allowing prefix of the probe loop just advances the state. -/
theorem compositeProbe_append_of_allows {σ : Type} {pre : List (CompEntry σ)} {s s1 : σ}
    (h : ProbeAllows pre s s1) (l : List (CompEntry σ)) :
    compositeProbe (pre ++ l) s = compositeProbe l s1 := by
  induction h with
  | nil s => rfl
  | cons e rest s s2 hallow htail ih =>
      simp only [List.cons_append, compositeProbe, hallow, if_true, List.append_eq, ih]

/-- C1 (amended): the entry list maintained by add is sorted by descending
priority, so check probes in that order; the first denying entry
short-circuits with its result and its name as limiterName; and when every
entry allows, the lowest-priority (last) entry's check is invoked a second
time on the post-probe state and that second result is returned without a
limiterName — so on the all-allow path the last limiter's counter is
consumed twice, not once. -/
theorem composite_check_spec {σ : Type} :
    (∀ (entries : List (CompEntry σ)) (e : CompEntry σ),
      (addLimiter entries e).Pairwise (fun a b => b.priority ≤ a.priority)) ∧
    (∀ (pre : List (CompEntry σ)) (e : CompEntry σ) (rest : List (CompEntry σ)) (s s1 : σ),
      ProbeAllows pre s s1 → (e.limiterCheck s1).fst.allowed = false →
      compositeCheck (pre ++ e :: rest) s
        = some ({ res := (e.limiterCheck s1).fst, limiterName := some e.name },
                (e.limiterCheck s1).snd)) ∧
    (∀ (entries : List (CompEntry σ)) (s s1 : σ) (h : entries ≠ []),
      ProbeAllows entries s s1 →
      compositeCheck entries s
        = some ({ res := ((entries.getLast h).limiterCheck s1).fst, limiterName := none },
                ((entries.getLast h).limiterCheck s1).snd)) := by
  refine ⟨fun entries e => ?_, fun pre e rest s s1 hpre hdeny => ?_,
    fun entries s s1 h hall => ?_⟩
  · have hs :=
      @List.sorted_mergeSort (CompEntry σ) (fun a b => decide (b.priority ≤ a.priority))
        (fun a b c hab hbc =>
          decide_eq_true (le_trans (of_decide_eq_true hbc) (of_decide_eq_true hab)))
        (fun a b => by rcases le_total b.priority a.priority with hle | hle <;> simp [hle])
        (entries ++ [e])
    unfold addLimiter
    exact hs.imp fun hab => of_decide_eq_true hab
  · unfold compositeCheck
    rw [compositeProbe_append_of_allows hpre]
    simp [compositeProbe, hdeny]
  · unfold compositeCheck
    have hmain := compositeProbe_append_of_allows hall ([] : List (CompEntry σ))
    rw [List.append_nil] at hmain
    rw [hmain]
    simp only [compositeProbe]
    rw [List.getLast?_eq_getLast entries h]

/-- A token-bucket member of the composite limiter: its check reads and
writes the limiter's own KV record, so the composite's state is that
record; a call that writes replaces it, a call that denies leaves it. -/
def tbMember (name : String) (priority bucketSize refillRate : ℚ) (now : ℤ) (cost : ℚ) :
    CompEntry (Option TBState) :=
  { name := name, priority := priority,
    limiterCheck := fun s =>
      let out := tbCheck bucketSize refillRate now cost s
      (out.fst,
       match out.snd with
       | some (st, _) => some st
       | none => s) }

/-- Witness for composite_check_spec: a single all-allowing token-bucket
member, probed from an empty store, falls into the all-allow branch. -/
theorem composite_check_spec_witness :
    ([tbMember "tb" 0 10 1 0 1] ≠ []) ∧
    ((tbMember "tb" 0 10 1 0 1).limiterCheck (none : Option TBState)).fst.allowed = true ∧
    compositeCheck [tbMember "tb" 0 10 1 0 1] (none : Option TBState)
      = some ({ res := ((tbMember "tb" 0 10 1 0 1).limiterCheck
                  (some { tokens := 9, lastUpdate := 0 })).fst,
                limiterName := none },
              ((tbMember "tb" 0 10 1 0 1).limiterCheck
                (some { tokens := 9, lastUpdate := 0 })).snd) := by
  have hallow : ((tbMember "tb" 0 10 1 0 1).limiterCheck (none : Option TBState)).fst.allowed
      = true := by
    norm_num [tbMember, tbCheck]
  have hsnd : ((tbMember "tb" 0 10 1 0 1).limiterCheck (none : Option TBState)).snd
      = some { tokens := 9, lastUpdate := 0 } := by
    norm_num [tbMember, tbCheck]
  refine ⟨List.cons_ne_nil _ _, hallow, ?_⟩
  exact composite_check_spec.2.2 [tbMember "tb" 0 10 1 0 1] none
    (some { tokens := 9, lastUpdate := 0 }) (List.cons_ne_nil _ _)
    (ProbeAllows.cons _ _ _ _ hallow (hsnd ▸ ProbeAllows.nil _))

/-- Counterexample to C1 as stated: with one token-bucket member of size 10
and cost 1, starting from an empty store, the probe loop alone leaves 9
tokens, but compositeCheck re-runs the last member's check and returns its
second result: 8 tokens remain and the returned remaining is 8 — the
lowest-priority counter is incremented twice, not exactly once. -/
theorem composite_double_increment_cex :
    compositeCheck [tbMember "tb" 0 10 1 0 1] (none : Option TBState)
      = some ({ res := { allowed := true, remaining := 8, limit := 10, reset := 1000,
                         retryAfter := none }, limiterName := none },
              some { tokens := 8, lastUpdate := 0 }) ∧
    compositeProbe [tbMember "tb" 0 10 1 0 1] (none : Option TBState)
      = Sum.inr (some { tokens := 9, lastUpdate := 0 }) := by
  constructor <;> norm_num [compositeCheck, compositeProbe, tbMember, tbCheck]

/-- C10: with no registered limiter, compositeCheck reaches the undefined
last-entry access and crashes (none); with at least one registered limiter
the access is safe and a result is always produced. -/
theorem composite_empty_crashes_nonempty_safe {σ : Type} (s : σ)
    (entries : List (CompEntry σ)) :
    compositeCheck ([] : List (CompEntry σ)) s = none ∧
    (entries ≠ [] → (compositeCheck entries s).isSome = true) := by
  refine ⟨rfl, fun h => ?_⟩
  unfold compositeCheck
  rcases hp : compositeProbe entries s with out | s1
  · rfl
  · obtain ⟨last, hl⟩ := Option.isSome_iff_exists.mp (List.getLast?_isSome.mpr h)
    rw [hl]
    rfl

/-- Witness for composite_empty_crashes_nonempty_safe: a one-member list is
nonempty and its check returns a value. -/
theorem composite_empty_crashes_witness :
    ([tbMember "w" 0 10 1 0 1] ≠ []) ∧
    (compositeCheck [tbMember "w" 0 10 1 0 1] (none : Option TBState)).isSome = true :=
  ⟨List.cons_ne_nil _ _,
   (composite_empty_crashes_nonempty_safe (none : Option TBState)
     [tbMember "w" 0 10 1 0 1]).2 (List.cons_ne_nil _ _)⟩

/-! ## C7: fixed-window middleware -/

/-- C7 (amended): when the stored window counter has reached the maximum
the middleware responds 429 with exactly the headers X-RateLimit-Limit,
X-RateLimit-Remaining: 0 and X-RateLimit-Reset — no Retry-After header —
and a JSON body with error, message and retryAfter fields; when the KV read
fails, and likewise when the counter write fails, the request is passed to
the next handler (fail open) with the error logged. -/
theorem rateLimiter_mw_spec :
    (∀ (now count : ℤ) (putOk : Bool), rlMax ≤ count →
      rateLimiterMw now (Except.ok (some count)) putOk
        = MwOutcome.denyResponse 429
            [("X-RateLimit-Limit", toString rlMax),
             ("X-RateLimit-Remaining", "0"),
             ("X-RateLimit-Reset", toString (Int.fdiv now rlWindowMs * rlWindowMs + rlWindowMs))]
            { error := "Too Many Requests",
              message := "Rate limit exceeded. Try again in "
                ++ toString (⌈((Int.fdiv now rlWindowMs * rlWindowMs + rlWindowMs - now : ℤ) : ℚ)
                     / 1000⌉ : ℤ) ++ " seconds",
              retryAfter :=
                ⌈((Int.fdiv now rlWindowMs * rlWindowMs + rlWindowMs - now : ℤ) : ℚ) / 1000⌉ } ∧
      "Retry-After" ∉
        ["X-RateLimit-Limit", "X-RateLimit-Remaining", "X-RateLimit-Reset"]) ∧
    (∀ (now : ℤ) (putOk : Bool),
      rateLimiterMw now (Except.error ()) putOk = MwOutcome.nextHandler [] true) ∧
    (∀ (now : ℤ) (stored : Option ℤ), stored.getD 0 < rlMax →
      rateLimiterMw now (Except.ok stored) false = MwOutcome.nextHandler [] true) := by
  refine ⟨fun now count putOk h => ⟨?_, by decide⟩, fun now putOk => rfl,
    fun now stored h => ?_⟩
  · simp [rateLimiterMw, h]
  · simp [rateLimiterMw, not_le.mpr h]

/-- Witness for rateLimiter_mw_spec: a request under the limit whose
counter write fails is passed through with the error logged. -/
theorem rateLimiter_mw_spec_witness :
    (rlMax ≤ 100 ∧ (some (42:ℤ)).getD 0 < rlMax) ∧
    rateLimiterMw 0 (Except.ok (some 42)) false = MwOutcome.nextHandler [] true :=
  ⟨⟨by decide, by decide⟩, rateLimiter_mw_spec.2.2 0 (some 42) (by decide)⟩

/-- Counterexample to C7 as stated: at the failing input (time 0, stored
count 100) the middleware denies with status 429 and only the three
X-RateLimit headers; no Retry-After header is among them — Retry-After
appears only as the retryAfter field of the JSON body. -/
theorem rateLimiter_mw_no_retry_after_header_cex :
    rateLimiterMw 0 (Except.ok (some 100)) true
      = MwOutcome.denyResponse 429
          [("X-RateLimit-Limit", "100"),
           ("X-RateLimit-Remaining", "0"),
           ("X-RateLimit-Reset", "60000")]
          { error := "Too Many Requests",
            message := "Rate limit exceeded. Try again in 60 seconds",
            retryAfter := 60 } ∧
    "Retry-After" ∉
      (["X-RateLimit-Limit", "X-RateLimit-Remaining", "X-RateLimit-Reset"] : List String) := by
  have hceil : (⌈((60000 : ℤ) : ℚ) / 1000⌉ : ℤ) = 60 := by norm_num
  constructor
  · show MwOutcome.denyResponse 429
        [("X-RateLimit-Limit", toString rlMax),
         ("X-RateLimit-Remaining", "0"),
         ("X-RateLimit-Reset", toString (60000 : ℤ))]
        { error := "Too Many Requests",
          message := "Rate limit exceeded. Try again in "
            ++ toString (⌈((60000 : ℤ) : ℚ) / 1000⌉ : ℤ) ++ " seconds",
          retryAfter := ⌈((60000 : ℤ) : ℚ) / 1000⌉ } = _
    rw [hceil]
    decide
  · decide

/-! ## C8: auth middleware -/

/-- With an empty configured key set the permissive middleware never
rejects: API-key gating is disabled. -/
theorem authMw_next_of_no_keys (path : String) (apiKey authHeader env : Option String)
    (hv : validKeysOf env = []) : authMw path apiKey authHeader env = AuthResult.next := by
  unfold authMw
  by_cases h1 : path = "/health"
  · rw [if_pos h1]
  · rw [if_neg h1]
    by_cases h2 : truthy apiKey = true
    · have hno : ¬ (validKeysOf env ≠ [] ∧ apiKey.getD "" ∉ validKeysOf env) := by simp [hv]
      rw [if_pos h2, if_neg hno]
    · rw [if_neg h2]
      rcases authHeader with _ | a
      · rfl
      · simp only [ite_self]

/-- Without an X-API-Key header the permissive middleware always passes,
whatever the Authorization header holds. -/
theorem authMw_next_of_no_key (path : String) (authHeader env : Option String) :
    authMw path none authHeader env = AuthResult.next := by
  unfold authMw
  by_cases h1 : path = "/health"
  · rw [if_pos h1]
  · rw [if_neg h1]
    rw [if_neg (by simp [truthy] : ¬ truthy (none : Option String) = true)]
    rcases authHeader with _ | a
    · rfl
    · simp only [ite_self]

/-- C8 (amended): the permissive middleware returns 401 exactly when the
path is not /health, an X-API-Key header is present with a non-empty
value, the configured key set is non-empty and the key is not in the set;
an empty or absent API_KEYS configuration disables API-key gating; a
request without an API key passes whatever the Authorization header holds
(in particular with a non-empty Bearer token, and with neither header);
the strict requireAuth variant rejects with 401 when neither header is
present (truthy). -/
theorem auth_mw_spec (path : String) (apiKey authHeader env : Option String) :
    (authMw path apiKey authHeader env = AuthResult.unauthorized401 ↔
      (path ≠ "/health" ∧ ∃ k, apiKey = some k ∧ k ≠ "" ∧
        validKeysOf env ≠ [] ∧ k ∉ validKeysOf env)) ∧
    ((env = none ∨ env = some "") → authMw path apiKey authHeader env = AuthResult.next) ∧
    (apiKey = none → authMw path apiKey authHeader env = AuthResult.next) ∧
    (truthy apiKey = false → truthy authHeader = false →
      requireAuthMw path apiKey authHeader env = AuthResult.unauthorized401) := by
  refine ⟨⟨?_, ?_⟩,
    fun h => authMw_next_of_no_keys path apiKey authHeader env
      (by rcases h with rfl | rfl <;> decide),
    fun h => by subst h; exact authMw_next_of_no_key path authHeader env,
    fun h1 h2 => by simp [requireAuthMw, h1, h2]⟩
  · intro h
    unfold authMw at h
    by_cases hp : path = "/health"
    · rw [if_pos hp] at h
      exact absurd h (by decide)
    · rw [if_neg hp] at h
      refine ⟨hp, ?_⟩
      rcases apiKey with _ | k
      · rw [if_neg (by simp [truthy] : ¬ truthy (none : Option String) = true)] at h
        rcases authHeader with _ | a
        · exact absurd h (by decide)
        · simp only [ite_self] at h
          exact absurd h (by decide)
      · by_cases hk : k = ""
        · subst hk
          rw [if_neg (by simp [truthy] : ¬ truthy (some "") = true)] at h
          rcases authHeader with _ | a
          · exact absurd h (by decide)
          · simp only [ite_self] at h
            exact absurd h (by decide)
        · have ht : truthy (some k) = true := by simp [truthy, hk]
          rw [if_pos ht] at h
          by_cases hv : validKeysOf env ≠ [] ∧ (some k).getD "" ∉ validKeysOf env
          · exact ⟨k, rfl, hk, hv.1, hv.2⟩
          · rw [if_neg hv] at h
            exact absurd h (by decide)
  · rintro ⟨hp, k, rfl, hk, hs, hmem⟩
    unfold authMw
    rw [if_neg hp, if_pos (by simp [truthy, hk] : truthy (some k) = true),
      if_pos (⟨hs, hmem⟩ : validKeysOf env ≠ [] ∧ (some k).getD "" ∉ validKeysOf env)]

/-- Witness for auth_mw_spec: a wrong key against the configured set is
rejected on a non-health path. -/
theorem auth_mw_spec_witness :
    (("/x" : String) ≠ "/health" ∧ validKeysOf (some "good") ≠ [] ∧
      "bad" ∉ validKeysOf (some "good")) ∧
    authMw "/x" (some "bad") none (some "good") = AuthResult.unauthorized401 :=
  ⟨⟨by decide, by decide, by decide⟩,
   (auth_mw_spec "/x" (some "bad") none (some "good")).1.mpr
     ⟨by decide, "bad", rfl, by decide, by decide, by decide⟩⟩

/-- Counterexample to C8 as stated: on the /health path an invalid,
present API key against a non-empty key set still passes — the claimed
equivalence fails because the source skips auth for the health check. -/
theorem auth_health_bypass_cex :
    authMw "/health" (some "bad") none (some "good") = AuthResult.next ∧
    validKeysOf (some "good") ≠ [] ∧
    "bad" ∉ validKeysOf (some "good") :=
  ⟨by decide, by decide, by decide⟩

/-! ## C9: percentile monotonicity -/

/-- Indexing a sorted list (with default) is monotone on in-bounds
indices. -/
theorem sorted_getD_mono {L : List ℚ} (hL : L.Sorted (· ≤ ·)) {i j : ℕ}
    (hij : i ≤ j) (hj : j < L.length) : L.getD i 0 ≤ L.getD j 0 := by
  have hi : i < L.length := lt_of_le_of_lt hij hj
  rw [List.getD_eq_getElem L 0 hi, List.getD_eq_getElem L 0 hj]
  have := hL.rel_get_of_le (a := ⟨i, hi⟩) (b := ⟨j, hj⟩) hij
  simpa using this

/-- The percentile index is monotone in p. -/
theorem percentileIndex_mono (n : ℕ) {p q : ℚ} (hpq : p ≤ q) :
    percentileIndex n p ≤ percentileIndex n q := by
  unfold percentileIndex
  have hceil : ⌈p / 100 * (n:ℚ)⌉ ≤ ⌈q / 100 * (n:ℚ)⌉ := by
    apply Int.ceil_mono
    have hn : (0:ℚ) ≤ (n:ℚ) := by positivity
    have : p / 100 ≤ q / 100 := by linarith
    exact mul_le_mul_of_nonneg_right this hn
  omega

/-- For p at most 100 the percentile index stays within the list. -/
theorem percentileIndex_le (n : ℕ) {p : ℚ} (hp : p ≤ 100) (hn : 1 ≤ n) :
    percentileIndex n p ≤ n - 1 := by
  unfold percentileIndex
  have hceil : ⌈p / 100 * (n:ℚ)⌉ ≤ (n:ℤ) := by
    rw [Int.ceil_le]
    push_cast
    have h1 : p / 100 ≤ 1 := by linarith
    have h0 : (0:ℚ) ≤ (n:ℚ) := by positivity
    nlinarith
  omega

/-- C9: over any window holding at least one metric, the aggregated
latency percentiles computed from the ascending-sorted latencies satisfy
p50 <= p95 <= p99 <= max. -/
theorem latency_percentiles_monotone (metrics : List RequestMetric)
    (nowMs windowMinutes : ℤ)
    (h : relevantMetrics metrics nowMs windowMinutes ≠ []) :
    (getAggregatedLatency metrics nowMs windowMinutes).p50
      ≤ (getAggregatedLatency metrics nowMs windowMinutes).p95 ∧
    (getAggregatedLatency metrics nowMs windowMinutes).p95
      ≤ (getAggregatedLatency metrics nowMs windowMinutes).p99 ∧
    (getAggregatedLatency metrics nowMs windowMinutes).p99
      ≤ (getAggregatedLatency metrics nowMs windowMinutes).max := by
  have hcond : ¬ ((relevantMetrics metrics nowMs windowMinutes).isEmpty = true) := by
    simp [List.isEmpty_iff, h]
  simp only [getAggregatedLatency, if_neg hcond]
  set L := ((relevantMetrics metrics nowMs windowMinutes).map
    (fun m => m.latencyMs)).mergeSort with hLdef
  have hLs : L.Sorted (· ≤ ·) := List.sorted_mergeSort' _
  have hlen : L.length = (relevantMetrics metrics nowMs windowMinutes).length := by
    rw [hLdef, List.length_mergeSort, List.length_map]
  have hn : 1 ≤ L.length := by
    rw [hlen]
    exact List.length_pos.mpr h
  have h5095 : percentileIndex L.length 50 ≤ percentileIndex L.length 95 :=
    percentileIndex_mono _ (by norm_num)
  have h9599 : percentileIndex L.length 95 ≤ percentileIndex L.length 99 :=
    percentileIndex_mono _ (by norm_num)
  have h99 : percentileIndex L.length 99 ≤ L.length - 1 :=
    percentileIndex_le _ (by norm_num) hn
  have hlast : L.length - 1 < L.length := by omega
  refine ⟨?_, ?_, ?_⟩ <;> simp only [percentileOf]
  · exact sorted_getD_mono hLs h5095 (by omega)
  · exact sorted_getD_mono hLs h9599 (by omega)
  · exact sorted_getD_mono hLs h99 hlast

/-- Witness for latency_percentiles_monotone: a single 10 ms metric in a
5-minute window. -/
theorem latency_percentiles_monotone_witness :
    (relevantMetrics [{ timestamp := 0, latencyMs := 10, statusCode := 200, cached := false }]
        0 5 ≠ []) ∧
    (getAggregatedLatency
        [{ timestamp := 0, latencyMs := 10, statusCode := 200, cached := false }] 0 5).p50
      ≤ (getAggregatedLatency
        [{ timestamp := 0, latencyMs := 10, statusCode := 200, cached := false }] 0 5).p95 :=
  ⟨by decide,
   (latency_percentiles_monotone
     [{ timestamp := 0, latencyMs := 10, statusCode := 200, cached := false }] 0 5
     (by decide)).1⟩
